import Mathlib

/-!
# Chef Waiter — run/state engine, shallow embedding

The handler definitions are translated from `src/webengine/httpengine.go`.
The `internalstate` state table and the `chefrunner` worker are not among
the provided sources (only their callers and the README are), so those
parts are modelled from the spec; each such definition says so in its doc
comment.

Conventions: byte strings (request bodies, whitelist entries) are
`List Nat`, one entry per byte; run identifiers (128-bit random opaque
strings in the program) are `Nat`, with a counter supplying freshness;
timestamps are `Int` epoch seconds.
-/

set_option maxRecDepth 16384

namespace ChefWaiter

/-- One run record of the job table, as in the README example
`{"status":"registered","exitcode":99,"starttime":...,"ondemand":true}`:
status, exit code (99 is the not-yet-finished sentinel), start timestamp,
on-demand origin flag, and the optional custom command text. -/
structure JobRecord where
  status : String
  exitcode : Int
  starttime : Int
  ondemand : Bool
  customText : Option (List Nat)
  deriving Repr, DecidableEq

/-- Modelled from the spec: the scheduler state / state table
(`internalstate.StateTable` is missing from the sources). Fields: the
insertion-ordered job table, the run-lock flag, the run interval in
seconds, the last fire timestamp, the maintenance end-time (0 = not in
maintenance), the periodic-runs-enabled flag, the last run identifier, and
the counter standing in for random identifier generation. -/
structure StateTable where
  jobs : List (Nat × JobRecord)
  runLock : Bool
  chefRunTimer : Int
  lastRunStartTime : Int
  maintenanceTimeEnd : Int
  periodicRuns : Bool
  lastRunGUID : Option Nat
  nextGuid : Nat
  deriving Repr, DecidableEq

/-- Modelled from the spec: `ReadRunLock` reads the run-lock flag. -/
def StateTable.ReadRunLock (t : StateTable) : Bool := t.runLock

/-- Modelled from the spec: `LockRuns` sets the run-lock flag. -/
def StateTable.LockRuns (t : StateTable) (b : Bool) : StateTable :=
  { t with runLock := b }

/-- Modelled from the spec: `Read guid` looks the identifier up in the job
table (`getRun(identifier) → record | NotFound`). -/
def StateTable.Read (t : StateTable) (g : Nat) : Option JobRecord :=
  (t.jobs.find? (fun p => p.1 == g)).map (fun p => p.2)

/-- Modelled from the spec: `ReadChefRunTimer` returns the stored run
interval in seconds (`getRunInterval() → seconds`). -/
def StateTable.ReadChefRunTimer (t : StateTable) : Int := t.chefRunTimer

/-- Modelled from the spec and README: `WriteChefRunTimer i` stores the run
interval. The README documents the route value `i` as minutes between
runs, while the stored interval is seconds (`getChefRunInterval` divides
it by 60 to report minutes, and `getNextChefRun` adds it to an
epoch-seconds timestamp), so the writer stores `i * 60` seconds. -/
def StateTable.WriteChefRunTimer (t : StateTable) (i : Int) : StateTable :=
  { t with chefRunTimer := i * 60 }

/-- Modelled from the spec: `GetlastRunStartTime` returns the last
periodic-fire timestamp in epoch seconds. -/
def StateTable.GetlastRunStartTime (t : StateTable) : Int := t.lastRunStartTime

/-- Modelled from the spec: `WriteMaintenanceTimeEnd` stores the
maintenance end-time (epoch seconds; 0 = not in maintenance). -/
def StateTable.WriteMaintenanceTimeEnd (t : StateTable) (e : Int) : StateTable :=
  { t with maintenanceTimeEnd := e }

/-- Modelled from the spec: `ReadMaintenanceTimeEnd` reads the stored
maintenance end-time. -/
def StateTable.ReadMaintenanceTimeEnd (t : StateTable) : Int := t.maintenanceTimeEnd

/-- Modelled from the spec: `InMaintenceMode` holds exactly when the stored
maintenance end-time is strictly in the future ("maintenance end-time >
now → suppress"); the clock reading is passed explicitly. -/
def StateTable.InMaintenceMode (t : StateTable) (now : Int) : Bool :=
  decide (now < t.maintenanceTimeEnd)

/-- The web engine's custom-run whitelist (`customRunWhitelist` in
`httpengine.go`): the allowed command texts and whether the whitelist is
in use. -/
structure CustomRunWhitelist where
  whitelist : List (List Nat)
  use : Bool
  deriving Repr, DecidableEq

/-- Full server state: the state table, the worker's single queue slot
(`some guid` = a registered run waiting to be picked up — modelled from
the spec's "Queue Slot: at most one pending Run Record reference; set to
empty when the Worker dequeues it"), and the custom-run whitelist. -/
structure ServerState where
  state : StateTable
  slot : Option Nat
  whitelists : CustomRunWhitelist
  deriving Repr, DecidableEq

/-- Modelled from the spec: the worker's `OnDemandRun` (the `chefrunner`
package is missing from the sources). Coalescing rule: "if the queue slot
already holds a pending (not yet started) record, return its identifier
unchanged instead of creating a new one"; otherwise issue a fresh
identifier and insert a record with status "registered", the exit-code
sentinel 99, the current timestamp and the on-demand origin flag. -/
def OnDemandRun (now : Int) (s : ServerState) : Nat × ServerState :=
  match s.slot with
  | some g => (g, s)
  | none =>
      let g := s.state.nextGuid
      (g, { s with
              slot := some g
              state := { s.state with
                          nextGuid := g + 1
                          jobs := s.state.jobs ++ [(g, ⟨"registered", 99, now, true, none⟩)] } })

/-- Modelled from the spec: the worker's `CustomRun text`, like
`OnDemandRun` but recording the caller-supplied command text. -/
def CustomRun (now : Int) (text : List Nat) (s : ServerState) : Nat × ServerState :=
  match s.slot with
  | some g => (g, s)
  | none =>
      let g := s.state.nextGuid
      (g, { s with
              slot := some g
              state := { s.state with
                          nextGuid := g + 1
                          jobs := s.state.jobs ++ [(g, ⟨"registered", 99, now, true, some text⟩)] } })

/-- Modelled from the spec: the worker dequeues the slot's record, emptying
the slot and moving the record's status from "registered" to "running". -/
def workerDequeue (s : ServerState) : ServerState :=
  match s.slot with
  | none => s
  | some g =>
      { s with
          slot := none
          state := { s.state with
                      jobs := s.state.jobs.map
                        (fun p => if p.1 = g then (p.1, { p.2 with status := "running" }) else p) } }

/-- The part of an HTTP reply the claims are about: the status code and,
for the run-registration handlers, the identifier whose record is written
back as the body. -/
structure RunResponse where
  status : Nat
  guid : Option Nat
  deriving Repr, DecidableEq

/-- `registerChefRun` (GET /chefclient), `httpengine.go` lines 135-152:
refuse with 403 Forbidden when the run lock is set; otherwise admit via
the worker's `OnDemandRun` and write the resulting record back (JSON
serialization of a record never fails, so the 500 branch is
unreachable in the model). -/
def registerChefRun (now : Int) (s : ServerState) : RunResponse × ServerState :=
  if s.state.ReadRunLock then (⟨403, none⟩, s)
  else
    let r := OnDemandRun now s
    (⟨200, some r.1⟩, r.2)

/-- `bodySlurp` after the handler's read into a 513-byte zero-initialized
buffer: the first `min |body| 513` bytes of the body, zero-padded to 513
bytes (the model reads the full available prefix in one call, with no
read error). -/
def slurp (body : List Nat) : List Nat :=
  body.take 513 ++ List.replicate (513 - min body.length 513) 0

/-- `bytes.TrimRight(bodySlurp, "\x00")`: drop trailing zero bytes. -/
def trimRightNul (l : List Nat) : List Nat :=
  (l.reverse.dropWhile (fun b => b == 0)).reverse

/-- The custom-run command text the handler derives from a request body. -/
def customText (body : List Nat) : List Nat := trimRightNul (slurp body)

/-- `registerChefCustomRun` (POST /chefclient), `httpengine.go` lines
154-213. `force` is true when the query carries `force=true`, which turns
`checklock` off, skipping only the lock check. Then: read at most 513 body
bytes and refuse with 400 BadRequest when more than 512 were read; derive
the command text by trimming trailing NULs; when a whitelist is in use,
refuse with 403 Forbidden any text equal to no whitelist entry; otherwise
admit via the worker's `CustomRun` and write the record back. -/
def registerChefCustomRun (now : Int) (force : Bool) (body : List Nat)
    (s : ServerState) : RunResponse × ServerState :=
  let checklock := !force
  if checklock && s.state.ReadRunLock then (⟨403, none⟩, s)
  else
    let n := min body.length 513
    if 512 < n then (⟨400, none⟩, s)
    else
      let text := customText body
      if s.whitelists.use && !(decide (text ∈ s.whitelists.whitelist)) then (⟨403, none⟩, s)
      else
        let r := CustomRun now text s
        (⟨200, some r.1⟩, r.2)

/-- `getChefStatus` (GET /chefclient/{guid}), `httpengine.go` lines
216-228: serialize `state.Read guid` and write it back. The handler writes
no error status other than the 500 on serialization failure (unreachable
in the model), so the reply status is 200 whatever the lookup produced. -/
def getChefStatus (s : ServerState) (g : Nat) : Nat × Option JobRecord :=
  (200, s.state.Read g)

/-- `getNextChefRun` (GET /chef/nextrun), lines 287-300: the reported epoch
is `GetlastRunStartTime + ReadChefRunTimer`. -/
def getNextChefRun (s : ServerState) : Int :=
  s.state.GetlastRunStartTime + s.state.ReadChefRunTimer

/-- `setChefRunInterval` (GET /chef/interval/{i}), lines 302-321. `parsed`
is `strconv.Atoi`'s result (`none` = not a number). A non-number or a
negative `i` is refused with 400 by the first check, `i ≤ 0` by the
second; a positive `i` is stored via `WriteChefRunTimer` and the handler
replies with the implicit 200. -/
def setChefRunInterval (parsed : Option Int) (s : ServerState) : Nat × ServerState :=
  match parsed with
  | none => (400, s)
  | some i =>
      if i < 0 then (400, s)
      else if i ≤ 0 then (400, s)
      else (200, { s with state := s.state.WriteChefRunTimer i })

/-- `getChefRunInterval` (GET /chef/interval), lines 323-327: reports
`ReadChefRunTimer / 60` minutes (the stored values at issue are exact
multiples of 60, where Go's and Lean's division conventions agree). -/
def getChefRunInterval (s : ServerState) : Int :=
  s.state.ReadChefRunTimer / 60

/-- `setChefMaintenance` (GET /chef/maintenance/start/{i}), lines 371-383:
a non-number is refused with 400; otherwise the maintenance end-time
becomes `now + minutes * 60` epoch seconds. -/
def setChefMaintenance (now : Int) (parsed : Option Int) (s : ServerState) :
    Nat × ServerState :=
  match parsed with
  | none => (400, s)
  | some minutes =>
      (200, { s with state := s.state.WriteMaintenanceTimeEnd (now + minutes * 60) })

/-- `removeChefMaintenance` (GET /chef/maintenance/end), lines 385-390:
clears the maintenance end-time to 0. -/
def removeChefMaintenance (s : ServerState) : Nat × ServerState :=
  (200, { s with state := s.state.WriteMaintenanceTimeEnd 0 })

/-- `getChefMaintenance` (GET /chef/maintenance), lines 367-370: reports
the stored end-time and `InMaintenceMode`. -/
def getChefMaintenance (now : Int) (s : ServerState) : Int × Bool :=
  (s.state.ReadMaintenanceTimeEnd, s.state.InMaintenceMode now)

/-- `SetWhitelist` (`httpengine.go` lines 84-88): installs the allowed
custom-run texts and marks the whitelist as in use. -/
def SetWhitelist (s : ServerState) (wl : List (List Nat)) : ServerState :=
  { s with whitelists := ⟨wl, true⟩ }

/-- Identifiers present in the job table, in insertion order. -/
def jobIds (t : StateTable) : List Nat := t.jobs.map (fun p => p.1)

/-- Identifier-freshness invariant of the counter model of GUID
generation: every identifier in the table, and the queued one, is below
the counter. It holds of the initial (empty) state and is preserved by
every operation. -/
def guidInv (s : ServerState) : Bool :=
  (s.state.jobs.all (fun p => decide (p.1 < s.state.nextGuid))) &&
    (match s.slot with
     | none => true
     | some g => decide (g < s.state.nextGuid))

/-- A sequence of on-demand admissions (each at its own timestamp),
returning the identifiers handed out, oldest first. -/
def runCalls (nows : List Int) (s : ServerState) : List Nat × ServerState :=
  match nows with
  | [] => ([], s)
  | now :: rest =>
      let r := OnDemandRun now s
      let rs := runCalls rest r.2
      (r.1 :: rs.1, rs.2)

/-! ## Concrete states used by witnesses and counterexamples -/

/-- A fresh server state: lock clear, empty table, no whitelist. -/
def freshState : ServerState :=
  ⟨⟨[], false, 1800, 0, 0, true, none, 0⟩, none, ⟨[], false⟩⟩

/-- A server state with the run lock set, empty table, no whitelist. -/
def lockedState : ServerState :=
  ⟨⟨[], true, 1800, 0, 0, true, none, 0⟩, none, ⟨[], false⟩⟩

/-- A state with one registered on-demand run (identifier 0) in the table
and sitting in the queue slot, not yet picked up by the worker. -/
def queuedState : ServerState :=
  ⟨⟨[(0, ⟨"registered", 99, 4, true, none⟩)], false, 1800, 0, 0, true, none, 1⟩,
    some 0, ⟨[], false⟩⟩

/-- A state with the run lock set and a whitelist in use that allows only
the command text `[1, 2]`. -/
def lockedWlState : ServerState :=
  ⟨⟨[], true, 1800, 0, 0, true, none, 0⟩, none, ⟨[[1, 2]], true⟩⟩

/-- A state with the run lock clear and a whitelist in use that allows
only the command text `[1, 2]`. -/
def wlState : ServerState :=
  ⟨⟨[], false, 1800, 0, 0, true, none, 0⟩, none, ⟨[[1, 2]], true⟩⟩

/-- A 513-byte request body, one byte over the 512-byte bound. -/
def oversizedBody : List Nat := List.replicate 513 7

/-! ## Claims -/

/-- C1: with the run lock set, `registerChefRun` (GET /chefclient) and
`registerChefCustomRun` (POST /chefclient, no force override) both reply
403 Forbidden, no run record is created, and the whole server state — the
job table included — is unchanged. -/
theorem c1_lock_gates_admission (s : ServerState) (now : Int) (body : List Nat)
    (h : s.state.runLock = true) :
    registerChefRun now s = (⟨403, none⟩, s) ∧
      registerChefCustomRun now false body s = (⟨403, none⟩, s) := by
  constructor
  · simp [registerChefRun, StateTable.ReadRunLock, h]
  · simp [registerChefCustomRun, StateTable.ReadRunLock, h]

/-- C1, witness: the lock gate at a concrete locked state. -/
theorem c1_lock_gates_admission_witness :
    registerChefRun 5 lockedState = (⟨403, none⟩, lockedState) ∧
      registerChefCustomRun 5 false [1, 2] lockedState = (⟨403, none⟩, lockedState) :=
  c1_lock_gates_admission lockedState 5 [1, 2] rfl

/-- C3, counterexample: querying the unknown identifier 5 against an empty
job table finds no record, yet `getChefStatus` replies with the success
status 200, not a NotFound status — the handler has no 404 branch. -/
theorem c3_counterexample :
    freshState.state.Read 5 = none ∧ (getChefStatus freshState 5).1 = 200 ∧
      (getChefStatus freshState 5).1 ≠ 404 := by decide

/-- C3, amended: querying an identifier absent from the job table replies
with HTTP 200 whose payload is the empty lookup result; the absence is
conveyed only in the payload (the handler's sole error reply is the 500 on
serialization failure, unreachable in the model), never as a NotFound
status. -/
theorem c3_unknown_guid_replies_200 (s : ServerState) (g : Nat)
    (h : s.state.Read g = none) :
    getChefStatus s g = (200, none) := by
  simp [getChefStatus, h]

/-- C3, witness for the amended claim: the unknown identifier 5 on a fresh
state. -/
theorem c3_unknown_guid_replies_200_witness :
    getChefStatus freshState 5 = (200, none) :=
  c3_unknown_guid_replies_200 freshState 5 (by decide)

/-- C5: `setChefMaintenance` with a non-negative whole number `i` sets the
maintenance end-time to `now + i` minutes (`i = 0` giving an already
expired window), `removeChefMaintenance` clears it to 0, and the
maintenance flag reported by `getChefMaintenance` holds exactly when the
stored end-time is strictly in the future. -/
theorem c5_maintenance_window (s : ServerState) (now : Int) (i : Nat) :
    (setChefMaintenance now (some i) s).2.state.maintenanceTimeEnd = now + i * 60 ∧
      (removeChefMaintenance s).2.state.maintenanceTimeEnd = 0 ∧
      (getChefMaintenance now s).2 = decide (now < s.state.maintenanceTimeEnd) ∧
      (getChefMaintenance now (setChefMaintenance now (some 0) s).2).2 = false := by
  refine ⟨?_, ?_, ?_, ?_⟩
  · simp [setChefMaintenance, StateTable.WriteMaintenanceTimeEnd]
  · simp [removeChefMaintenance, StateTable.WriteMaintenanceTimeEnd]
  · simp [getChefMaintenance, StateTable.InMaintenceMode]
  · simp [getChefMaintenance, setChefMaintenance, StateTable.InMaintenceMode,
      StateTable.WriteMaintenanceTimeEnd]

/-- C8: `getNextChefRun` (GET /chef/nextrun) reports, in epoch seconds,
exactly the last fire time plus the configured run interval. -/
theorem c8_nextrun_is_last_plus_interval (s : ServerState) :
    getNextChefRun s = s.state.lastRunStartTime + s.state.chefRunTimer := rfl

/-- C2: while an admitted run sits in the queue slot (status "registered",
not yet picked up), every call in any sequence of on-demand requests
returns that run's identifier and changes nothing; once the worker
dequeues it (moving it out of "registered" and emptying the slot), the
next request hands out a fresh identifier, distinct from the queued one
and from every identifier already in the table. -/
theorem c2_ondemand_coalescing (s : ServerState) (g : Nat)
    (hslot : s.slot = some g) (hinv : guidInv s = true) :
    (∀ nows : List Int, runCalls nows s = (nows.map (fun _ => g), s)) ∧
      (∀ now : Int,
        (OnDemandRun now (workerDequeue s)).1 ≠ g ∧
          (OnDemandRun now (workerDequeue s)).1 ∉ jobIds s.state) := by
  have hcall : ∀ now : Int, OnDemandRun now s = (g, s) := by
    intro now
    simp [OnDemandRun, hslot]
  simp only [guidInv, hslot, Bool.and_eq_true, List.all_eq_true, decide_eq_true_eq] at hinv
  obtain ⟨htable, hglt⟩ := hinv
  constructor
  · intro nows
    induction nows with
    | nil => rfl
    | cons now rest ih => simp [runCalls, hcall, ih]
  · intro now
    have hfst : (OnDemandRun now (workerDequeue s)).1 = s.state.nextGuid := by
      simp [workerDequeue, hslot, OnDemandRun]
    rw [hfst]
    refine ⟨by omega, ?_⟩
    intro hmem
    simp only [jobIds, List.mem_map] at hmem
    obtain ⟨p, hp, hpe⟩ := hmem
    have := htable p hp
    omega

/-- C2, witness: three repeated requests against a queued run coalesce to
its identifier 0; after the worker dequeues, a fresh identifier is
handed out. -/
theorem c2_ondemand_coalescing_witness :
    runCalls [10, 11, 12] queuedState = ([0, 0, 0], queuedState) ∧
      (OnDemandRun 13 (workerDequeue queuedState)).1 ≠ 0 :=
  have h := c2_ondemand_coalescing queuedState 0 rfl (by decide)
  ⟨h.1 [10, 11, 12], (h.2 13).1⟩

/-- C4: set-then-get round-trips the run interval: for every positive `i`,
after `setChefRunInterval` stores interval `i` (the route value is minutes
and is kept internally as `60 * i` seconds), `getChefRunInterval` reports
exactly `i` minutes — the reported duration equals the stored one. -/
theorem c4_interval_roundtrip (s : ServerState) (i : Int) (h : 0 < i) :
    getChefRunInterval (setChefRunInterval (some i) s).2 = i ∧
      getChefRunInterval (setChefRunInterval (some i) s).2 * 60 =
        (setChefRunInterval (some i) s).2.state.ReadChefRunTimer := by
  have h1 : ¬ i < 0 := by omega
  have h2 : ¬ i ≤ 0 := by omega
  constructor
  · simp [getChefRunInterval, setChefRunInterval, h1, h2,
      StateTable.WriteChefRunTimer, StateTable.ReadChefRunTimer]
  · simp [getChefRunInterval, setChefRunInterval, h1, h2,
      StateTable.WriteChefRunTimer, StateTable.ReadChefRunTimer]

/-- C4, witness: setting the interval to 7 reports 7 back. -/
theorem c4_interval_roundtrip_witness :
    getChefRunInterval (setChefRunInterval (some 7) freshState).2 = 7 :=
  (c4_interval_roundtrip freshState 7 (by decide)).1

/-- C9: `setChefRunInterval` accepts only positive numbers: a non-number
input or any `i ≤ 0` is refused with 400 BadRequest and the stored
interval is untouched, while any positive `i` succeeds with the implicit
200 and updates the stored interval (to `i * 60` seconds, i.e. `i`
minutes). -/
theorem c9_interval_validation (s : ServerState) :
    setChefRunInterval none s = (400, s) ∧
      (∀ i : Int, i ≤ 0 → setChefRunInterval (some i) s = (400, s)) ∧
      (∀ i : Int, 0 < i →
        (setChefRunInterval (some i) s).1 = 200 ∧
          (setChefRunInterval (some i) s).2.state.chefRunTimer = i * 60) := by
  refine ⟨rfl, ?_, ?_⟩
  · intro i hi
    by_cases hneg : i < 0
    · simp [setChefRunInterval, hneg]
    · simp [setChefRunInterval, hneg, hi]
  · intro i hi
    have h1 : ¬ i < 0 := by omega
    have h2 : ¬ i ≤ 0 := by omega
    constructor
    · simp [setChefRunInterval, h1, h2]
    · simp [setChefRunInterval, h1, h2, StateTable.WriteChefRunTimer]

/-- C9, witness: -3 and 0 are refused leaving the state alone, 7 is
accepted and stored. -/
theorem c9_interval_validation_witness :
    setChefRunInterval (some (-3)) freshState = (400, freshState) ∧
      setChefRunInterval (some 0) freshState = (400, freshState) ∧
      (setChefRunInterval (some 7) freshState).1 = 200 ∧
      (setChefRunInterval (some 7) freshState).2.state.chefRunTimer = 7 * 60 :=
  ⟨(c9_interval_validation freshState).2.1 (-3) (by decide),
    (c9_interval_validation freshState).2.1 0 (by decide),
    (c9_interval_validation freshState).2.2 7 (by decide)⟩

/-- C6, counterexample to the claim as stated: with the run lock set and
no force override, a request whose 513-byte body exceeds the 512-byte
bound is refused with 403 Forbidden — the lock check runs before the body
is read — not with the claimed 400 BadRequest. -/
theorem c6_counterexample :
    512 < oversizedBody.length ∧
      (registerChefCustomRun 5 false oversizedBody lockedState).1.status = 403 ∧
      (registerChefCustomRun 5 false oversizedBody lockedState).1.status ≠ 400 := by
  decide

/-- C6, amended: a custom-run request whose body exceeds 512 bytes never
creates a run — the server state, job table included, is unchanged — and
whenever the run-lock gate does not refuse the request first (force set,
or lock clear) the reply is 400 BadRequest; with the lock set and no
force the refusal is the earlier 403. A body of at most 512 bytes always
passes the size check: no branch of the handler after it replies 400. -/
theorem c6_payload_size_bound (s : ServerState) (force : Bool) (body : List Nat)
    (now : Int) :
    (512 < body.length → (registerChefCustomRun now force body s).2 = s) ∧
      (512 < body.length → (force = true ∨ s.state.runLock = false) →
        registerChefCustomRun now force body s = (⟨400, none⟩, s)) ∧
      (body.length ≤ 512 → (registerChefCustomRun now force body s).1.status ≠ 400) := by
  by_cases hl : (!force && s.state.ReadRunLock) = true
  · have hres : registerChefCustomRun now force body s = (⟨403, none⟩, s) := by
      simp [registerChefCustomRun, hl]
    refine ⟨fun _ => by rw [hres], fun _ hgate => ?_, fun _ => by rw [hres]; simp⟩
    rcases hgate with hf | hlk
    · subst hf
      simp at hl
    · simp [StateTable.ReadRunLock, hlk] at hl
  · by_cases hsz : 512 < min body.length 513
    · have hres : registerChefCustomRun now force body s = (⟨400, none⟩, s) := by
        simp [registerChefCustomRun, hl, hsz]
      have hlen : 512 < body.length := by omega
      exact ⟨fun _ => by rw [hres], fun _ _ => hres, fun hle => absurd hle (by omega)⟩
    · have hlen : ¬ 512 < body.length := by omega
      refine ⟨fun h => absurd h hlen, fun h => absurd h hlen, fun _ => ?_⟩
      by_cases hwl :
          (s.whitelists.use && !(decide (customText body ∈ s.whitelists.whitelist))) = true
      · simp [registerChefCustomRun, hl, hsz, hwl]
      · cases hslot : s.slot <;>
          simp [registerChefCustomRun, hl, hsz, hwl, CustomRun, hslot]

/-- C6, witness for the amended claim: a forced 513-byte request against a
locked state is refused with 400 leaving the state unchanged, and a
1-byte request is never refused with 400. -/
theorem c6_payload_size_bound_witness :
    registerChefCustomRun 5 true oversizedBody lockedState = (⟨400, none⟩, lockedState) ∧
      (registerChefCustomRun 5 true [1] lockedState).1.status ≠ 400 :=
  ⟨(c6_payload_size_bound lockedState true oversizedBody 5).2.1 (by decide) (Or.inl rfl),
    (c6_payload_size_bound lockedState true [1] 5).2.2 (by decide)⟩

/-- C7: `SetWhitelist` leaves the whitelist in use; with a whitelist in
use and the body within the size bound, a command text equal to no
whitelist entry is refused with 403 and the state is unchanged (this
holds whether the refusal comes from the whitelist check or from the
earlier lock gate — both reply 403 with no mutation); when the lock gate
lets the request through, a text equal to some entry passes the whitelist
check and the run is admitted with 200, and with no whitelist in use
every text is admitted with 200. -/
theorem c7_whitelist_gate (s : ServerState) (body : List Nat) (now : Int)
    (force : Bool) (hsize : body.length ≤ 512) :
    (∀ wl : List (List Nat), (SetWhitelist s wl).whitelists.use = true) ∧
      (s.whitelists.use = true → customText body ∉ s.whitelists.whitelist →
        registerChefCustomRun now force body s = (⟨403, none⟩, s)) ∧
      ((force = true ∨ s.state.runLock = false) →
        (s.whitelists.use = true → customText body ∈ s.whitelists.whitelist →
          (registerChefCustomRun now force body s).1.status = 200) ∧
        (s.whitelists.use = false →
          (registerChefCustomRun now force body s).1.status = 200)) := by
  have hsz : ¬ 512 < min body.length 513 := by omega
  refine ⟨fun wl => rfl, ?_, ?_⟩
  · intro huse hnot
    by_cases hl : (!force && s.state.ReadRunLock) = true
    · simp [registerChefCustomRun, hl]
    · simp [registerChefCustomRun, hl, hsz, huse, hnot]
  · intro hgate
    have hl : ¬ (!force && s.state.ReadRunLock) = true := by
      rcases hgate with hf | hlk
      · subst hf
        simp
      · simp [StateTable.ReadRunLock, hlk]
    constructor
    · intro huse hmem
      cases hslot : s.slot <;>
        simp [registerChefCustomRun, hl, hsz, huse, hmem, CustomRun, hslot]
    · intro huse
      cases hslot : s.slot <;>
        simp [registerChefCustomRun, hl, hsz, huse, CustomRun, hslot]

/-- C7, witness: against a whitelist allowing only `[1, 2]`, the text
`[9]` is refused with 403 leaving the state unchanged, and the text
`[1, 2]` is admitted with 200. -/
theorem c7_whitelist_gate_witness :
    registerChefCustomRun 5 false [9] wlState = (⟨403, none⟩, wlState) ∧
      (registerChefCustomRun 5 false [1, 2] wlState).1.status = 200 :=
  ⟨(c7_whitelist_gate wlState [9] 5 false (by decide)).2.1 rfl (by decide),
    ((c7_whitelist_gate wlState [1, 2] 5 false (by decide)).2.2 (Or.inr rfl)).1 rfl
      (by decide)⟩

/-- C10: the force override bypasses only the lock check: with the run
lock set and `force=true`, an oversized body is still refused with 400
BadRequest and, when a whitelist is in use, a non-whitelisted text is
still refused with 403 Forbidden — in both cases no run is created and
the state is unchanged. -/
theorem c10_force_bypasses_only_lock (s : ServerState) (body : List Nat)
    (now : Int) (_hlock : s.state.runLock = true) :
    (512 < body.length →
        registerChefCustomRun now true body s = (⟨400, none⟩, s)) ∧
      (body.length ≤ 512 → s.whitelists.use = true →
        customText body ∉ s.whitelists.whitelist →
          registerChefCustomRun now true body s = (⟨403, none⟩, s)) := by
  constructor
  · intro hlen
    have hsz : 512 < min body.length 513 := by omega
    simp [registerChefCustomRun, hsz]
  · intro hlen huse hnot
    have hsz : ¬ 512 < min body.length 513 := by omega
    simp [registerChefCustomRun, hsz, huse, hnot]

/-- C10, witness: against a locked state whose whitelist allows only
`[1, 2]`, a forced 513-byte request is refused with 400 and a forced
request with the non-whitelisted text `[9]` is refused with 403. -/
theorem c10_force_bypasses_only_lock_witness :
    registerChefCustomRun 5 true oversizedBody lockedWlState = (⟨400, none⟩, lockedWlState) ∧
      registerChefCustomRun 5 true [9] lockedWlState = (⟨403, none⟩, lockedWlState) :=
  ⟨(c10_force_bypasses_only_lock lockedWlState oversizedBody 5 rfl).1 (by decide),
    (c10_force_bypasses_only_lock lockedWlState [9] 5 rfl).2 (by decide) rfl (by decide)⟩

end ChefWaiter
